import Mathlib

/-!
Verification of the task-store and prioritization engine of
`awesome-todo-server.py` (a JSON-file-backed todo list exposed over MCP).

The Python module is shallowly embedded:

* `Date` models `datetime.date` (a year/month/day triple; `datetime.date`
  serialises to a zero-padded ISO string `YYYY-MM-DD` via `str`, and those
  strings compare lexicographically exactly as the dates compare).
* `Task` models the pydantic `Task` model (all fields present and typed).
* `RawTask` models one JSON object as stored on disk and handled by the
  tools as a Python `dict`: every key may be absent, which is what the
  pervasive `t.get(key, default)` calls in the source are for.
* `StoreFile` models the state of one backing file (`todos.json` or
  `todo_archive.json`): missing, existing-but-unreadable (`open` raises,
  e.g. `PermissionError`), readable but not JSON (`json.load` raises
  `json.JSONDecodeError`), or holding a parsed JSON value.
* Each MCP tool becomes a function `ServerState → Except String α × ServerState`:
  the `Except.error` case models an uncaught Python exception escaping the
  tool, and the returned state holds the files after whatever writes the
  tool performed before returning or raising.
-/

namespace Todo

/-- Calendar date, modelling Python's `datetime.date` (year, month, day). -/
structure Date where
  year : Nat
  month : Nat
  day : Nat
deriving DecidableEq, Repr

/-- Python's `datetime.date.max`, i.e. 9999-12-31. -/
def dateMax : Date := ⟨9999, 12, 31⟩

/-- Chronological comparison of dates: lexicographic on (year, month, day).
ISO `YYYY-MM-DD` strings (the on-disk form) compare lexicographically in
exactly this order, so this is also the string comparison Python performs
when sorting stored due dates. -/
def dateLeProp (a b : Date) : Prop :=
  a.year < b.year ∨ (a.year = b.year ∧
    (a.month < b.month ∨ (a.month = b.month ∧ a.day ≤ b.day)))

instance (a b : Date) : Decidable (dateLeProp a b) := by
  unfold dateLeProp; infer_instance

/-- Boolean form of `dateLeProp`. -/
def dateLe (a b : Date) : Bool := decide (dateLeProp a b)

/-- Gregorian leap-year rule, as implemented by `datetime`. -/
def isLeap (y : Nat) : Bool := (y % 4 == 0 && y % 100 != 0) || y % 400 == 0

/-- Number of days in a month, as enforced by `datetime.date`. -/
def daysInMonth (y m : Nat) : Nat :=
  if m = 2 then (if isLeap y then 29 else 28)
  else if m = 4 ∨ m = 6 ∨ m = 9 ∨ m = 11 then 30
  else 31

/-- Validity of a date in Python's `datetime` domain (year 1..9999,
month 1..12, day within the month). -/
def Date.valid (d : Date) : Bool :=
  decide (1 ≤ d.year ∧ d.year ≤ 9999 ∧ 1 ≤ d.month ∧ d.month ≤ 12 ∧
    1 ≤ d.day ∧ d.day ≤ daysInMonth d.year d.month)

/-- The pydantic `Task` model of the source: all fields present and typed.
`subtasks` defaults to `[]` and `completed` to `false` when constructed
from a dict that lacks those keys. -/
structure Task where
  id : Int
  title : String
  description : String
  due : Date
  important : Bool
  urgent : Bool
  subtasks : List String
  completed : Bool
deriving DecidableEq, Repr

/-- One stored JSON object as the tools see it after `json.load`: a dict
whose keys may each be absent (`t.get(...)` in the source). -/
structure RawTask where
  id : Option Int := none
  title : Option String := none
  description : Option String := none
  due : Option Date := none
  important : Option Bool := none
  urgent : Option Bool := none
  subtasks : Option (List String) := none
  completed : Option Bool := none
deriving DecidableEq, Repr

/-- Pydantic validation `Task(**t)`: succeeds iff the six required fields
are present; `subtasks` and `completed` take their declared defaults. -/
def taskOfRaw (t : RawTask) : Option Task :=
  match t.id, t.title, t.description, t.due, t.important, t.urgent with
  | some i, some ti, some de, some du, some im, some ur =>
      some ⟨i, ti, de, du, im, ur, t.subtasks.getD [], t.completed.getD false⟩
  | _, _, _, _, _, _ => none

/-- Serialisation `new_task.model_dump()` followed by `json.dump`: every
field is written out. -/
def rawOfTask (t : Task) : RawTask :=
  ⟨some t.id, some t.title, some t.description, some t.due,
   some t.important, some t.urgent, some t.subtasks, some t.completed⟩

/-- Placeholder task used to totalise `taskOfRaw` on records already known
to be valid. -/
def defTask : Task := ⟨0, "", "", dateMax, false, false, [], false⟩

/-- Total version of `taskOfRaw`, meaningful only on valid records. -/
def forceTask (t : RawTask) : Task := (taskOfRaw t).getD defTask

/-- A record passes pydantic validation. -/
def validRaw (t : RawTask) : Bool := (taskOfRaw t).isSome

/-- The list comprehension `[Task(**t) for t in raw]`: validates every
record, raising (pydantic `ValidationError`) on the first invalid one. -/
def mapTasks : List RawTask → Except String (List Task)
  | [] => .ok []
  | t :: ts =>
    match taskOfRaw t with
    | none => .error "ValidationError"
    | some tk => (mapTasks ts).map (fun l => tk :: l)

/-- Truthiness of `t.get("important", False)`. -/
def rawImportant (t : RawTask) : Bool := t.important.getD false

/-- Truthiness of `t.get("urgent", False)`. -/
def rawUrgent (t : RawTask) : Bool := t.urgent.getD false

/-- Truthiness of `t.get("completed", False)` (and of `t.get("completed")`,
whose `None` default is equally falsy). -/
def rawCompleted (t : RawTask) : Bool := t.completed.getD false

/-- The third component of `sort_key`: `t.get("due", date.max)`. -/
def sortKeyDue (t : RawTask) : Date := t.due.getD dateMax

/-- The `sort_key` tuple `(not important, not urgent, due)` of
`prioritise_tasks` and `recommend_tasks_for_today`, with Python's
`False < True` encoded through `Bool.toNat`. -/
def pyKey (t : RawTask) : Nat × Nat × Date :=
  ((!rawImportant t).toNat, (!rawUrgent t).toNat, sortKeyDue t)

/-- Lexicographic non-strict order on `sort_key` tuples — the order by
which Python's `sorted` arranges the tasks. -/
def tripleLe (x y : Nat × Nat × Date) : Prop :=
  x.1 < y.1 ∨ (x.1 = y.1 ∧
    (x.2.1 < y.2.1 ∨ (x.2.1 = y.2.1 ∧ dateLeProp x.2.2 y.2.2)))

instance (x y : Nat × Nat × Date) : Decidable (tripleLe x y) := by
  unfold tripleLe; infer_instance

/-- Comparison used to model `sorted(raw_tasks, key=sort_key)`. -/
def keyLe (t1 t2 : RawTask) : Bool := decide (tripleLe (pyKey t1) (pyKey t2))

/-- Python's `sorted` with `key=sort_key`: a stable sort by `keyLe`. -/
def sortRaw (ts : List RawTask) : List RawTask := ts.mergeSort keyLe

/-- Parsed JSON content of a backing file: a list of task records, or any
non-list JSON value. -/
inductive JsonVal where
  | arr (ts : List RawTask)
  | other
deriving DecidableEq

/-- State of one backing file. `missing`: `os.path.exists` is false.
`unreadable`: the file exists but `open`/read raises an `OSError` such as
`PermissionError`. `badJson`: readable but `json.load` raises
`json.JSONDecodeError`. `json v`: parses to the JSON value `v`. -/
inductive StoreFile where
  | missing
  | unreadable
  | badJson
  | json (v : JsonVal)
deriving DecidableEq

/-- The two backing files: `todos.json` (active) and `todo_archive.json`. -/
structure ServerState where
  active : StoreFile
  archive : StoreFile
deriving DecidableEq

/-- The `_load_tasks` helper (lines 103-120): missing file loads as `[]`;
`json.JSONDecodeError` and `FileNotFoundError` are caught and yield `[]`;
a parsed non-list yields `[]`; any other exception (e.g. `PermissionError`
from `open`) propagates. -/
def loadListFile : StoreFile → Except String (List RawTask)
  | .missing => .ok []
  | .unreadable => .error "PermissionError"
  | .badJson => .ok []
  | .json (.arr ts) => .ok ts
  | .json .other => .ok []

/-- The `list_tasks` tool: loads the active file and validates each record. -/
def listTasks (s : ServerState) : Except String (List Task) × ServerState :=
  ((loadListFile s.active).bind mapTasks, s)

/-- The `add_task` tool: builds a `Task` from the primitive parameters
(`subtasks` defaulting to `[]`), appends its dump to the loaded active
list and saves. -/
def addTask (i : Int) (title description : String) (due : Date)
    (important urgent : Bool) (subtasks : Option (List String))
    (completed : Bool) (s : ServerState) : Except String Task × ServerState :=
  let newTask : Task :=
    ⟨i, title, description, due, important, urgent, subtasks.getD [], completed⟩
  match loadListFile s.active with
  | .error e => (.error e, s)
  | .ok tasks =>
      (.ok newTask, { s with active := .json (.arr (tasks ++ [rawOfTask newTask])) })

/-- ASCII whitespace stripped by Python's `str.strip()`. -/
def isSpace (c : Char) : Bool :=
  c == ' ' || c == '\t' || c == '\n' || c == '\r' || c == '\x0b' || c == '\x0c'

/-- Python's `str.strip()`: drop leading and trailing whitespace. -/
def pyStrip (l : List Char) : List Char :=
  ((l.dropWhile isSpace).reverse.dropWhile isSpace).reverse

/-- Python's `str.split(".")`: cut at every period; empty pieces are kept
(including a trailing one when the string ends with a period). -/
def splitOnDot : List Char → List (List Char)
  | [] => [[]]
  | c :: cs =>
    let r := splitOnDot cs
    if c == '.' then [] :: r
    else
      match r with
      | [] => [[c]]
      | x :: xs => (c :: x) :: xs

/-- The sentence splitting of `decompose_task`:
`[s.strip() for s in description.split(".") if s.strip()]`. -/
def codeFragments (description : String) : List String :=
  ((splitOnDot description.data).map (fun l => String.mk (pyStrip l))).filter
    (fun s => s != "")

/-- The lookup loop of `decompose_task`: find the first record whose `id`
matches, overwrite its `subtasks` with the fragments of its description,
and report the fragments together with the updated list. -/
def decompFirst (tid : Int) : List RawTask → Option (List String × List RawTask)
  | [] => none
  | t :: ts =>
    if t.id = some tid then
      let parts := codeFragments (t.description.getD "")
      some (parts, { t with subtasks := some parts } :: ts)
    else
      (decompFirst tid ts).map (fun pr => (pr.1, t :: pr.2))

/-- The `decompose_task` tool (lines 277-300). On a match the updated list
is saved and the fragments returned; otherwise `[]` is returned with no
write. -/
def decomposeTask (tid : Int) (s : ServerState) :
    Except String (List String) × ServerState :=
  match loadListFile s.active with
  | .error e => (.error e, s)
  | .ok tasks =>
    match decompFirst tid tasks with
    | some (parts, tasks2) => (.ok parts, { s with active := .json (.arr tasks2) })
    | none => (.ok [], s)

/-- The lookup loop of `mark_task_completed`: set `completed` on the first
record whose `id` matches. -/
def markFirst (tid : Int) : List RawTask → Option (List RawTask)
  | [] => none
  | t :: ts =>
    if t.id = some tid then some ({ t with completed := some true } :: ts)
    else (markFirst tid ts).map (fun l => t :: l)

/-- The `mark_task_completed` tool (lines 365-384): on a match the updated
list is saved and a confirmation returned; otherwise a not-found message is
returned with no write. -/
def markTaskCompleted (tid : Int) (s : ServerState) :
    Except String String × ServerState :=
  match loadListFile s.active with
  | .error e => (.error e, s)
  | .ok tasks =>
    match markFirst tid tasks with
    | some tasks2 =>
        (.ok ("Task " ++ toString tid ++ " marked as completed."),
         { s with active := .json (.arr tasks2) })
    | none => (.ok ("Task " ++ toString tid ++ " not found."), s)

/-- The `prioritise_tasks` tool (lines 304-326): load, sort by `sort_key`,
validate each record. (When a record lacks `"due"` the real interpreter
already raises during the sort — see the analysis of the key comparison
below — and otherwise raises at `Task(**t)`; in both codepaths the tool
raises and writes nothing, which is how the model behaves.) -/
def prioritiseTasks (s : ServerState) : Except String (List Task) × ServerState :=
  ((loadListFile s.active).bind (fun raw => mapTasks (sortRaw raw)), s)

/-- The `recommend_tasks_for_today` tool (lines 330-361): drop completed
records, sort by the same `sort_key`, keep the first five, validate. The
`today` parameter mirrors the `date.today()` value the source computes and
never uses. -/
def recommendTasksForToday (today : Date) (s : ServerState) :
    Except String (List Task) × ServerState :=
  ((loadListFile s.active).bind (fun raw =>
     mapTasks ((sortRaw (raw.filter (fun t => !rawCompleted t))).take 5)), s)

/-- The `archive_completed_tasks` tool (lines 388-423). With no completed
task it returns early, writing nothing. Otherwise it first saves the
incomplete records as the new active file, then reads the archive file
directly (missing file means start from `[]`; only `json.JSONDecodeError`
is caught, also yielding `[]`; an unreadable file raises after the active
write; a parsed non-list makes the later `.extend` raise, also after the
active write), appends the completed records and writes the archive. -/
def archiveCompletedTasks (s : ServerState) : Except String String × ServerState :=
  match loadListFile s.active with
  | .error e => (.error e, s)
  | .ok tasks =>
    let completedTasks := tasks.filter rawCompleted
    let incompleteTasks := tasks.filter (fun t => !rawCompleted t)
    if completedTasks.isEmpty then (.ok "No completed tasks to archive.", s)
    else
      let s1 := { s with active := .json (.arr incompleteTasks) }
      let msg := "Archived " ++ toString completedTasks.length ++ " completed tasks."
      match s1.archive with
      | .missing => (.ok msg, { s1 with archive := .json (.arr completedTasks) })
      | .unreadable => (.error "PermissionError", s1)
      | .badJson => (.ok msg, { s1 with archive := .json (.arr completedTasks) })
      | .json (.arr old) =>
          (.ok msg, { s1 with archive := .json (.arr (old ++ completedTasks)) })
      | .json .other => (.error "AttributeError", s1)

/-- The `view_archived_tasks` tool (lines 427-446): same missing-is-empty
and caught-exception policy as `_load_tasks`, against the archive file,
then per-record validation. -/
def viewArchivedTasks (s : ServerState) : Except String (List Task) × ServerState :=
  match s.archive with
  | .missing => (.ok [], s)
  | .unreadable => (.error "PermissionError", s)
  | .badJson => (.ok [], s)
  | .json (.arr ts) => (mapTasks ts, s)
  | .json .other => (.ok [], s)

/-- Zero-padded fixed-width decimal rendering, most significant digit
first: the digit lists behind `str(date)`'s `YYYY`, `MM` and `DD` groups. -/
def padDigits : Nat → Nat → List Char
  | 0, _ => []
  | w + 1, n => padDigits w (n / 10) ++ [Nat.digitChar (n % 10)]

/-- Serialisation of a date by `json.dump(..., default=str)`: the ISO
string `YYYY-MM-DD` with zero-padded fields. -/
def pyStrOfDate (d : Date) : String :=
  String.mk (padDigits 4 d.year ++ '-' :: (padDigits 2 d.month ++ '-' :: padDigits 2 d.day))

/-- Numeric value of a decimal digit character. -/
def charVal (c : Char) : Nat := c.toNat - 48

/-- Pydantic's parsing of a `date` field from a JSON string: accepts
exactly the ISO form `YYYY-MM-DD` denoting a valid calendar date. -/
def pydanticParseDate (s : String) : Option Date :=
  match s.data with
  | [y1, y2, y3, y4, h1, m1, m2, h2, d1, d2] =>
    if y1.isDigit && y2.isDigit && y3.isDigit && y4.isDigit && h1 == '-' &&
       m1.isDigit && m2.isDigit && h2 == '-' && d1.isDigit && d2.isDigit then
      let y := ((charVal y1 * 10 + charVal y2) * 10 + charVal y3) * 10 + charVal y4
      let m := charVal m1 * 10 + charVal m2
      let d := charVal d1 * 10 + charVal d2
      if (⟨y, m, d⟩ : Date).valid then some ⟨y, m, d⟩ else none
    else none
  | _ => none

/-- The value `t.get("due", date.max)` actually has in the running
interpreter: stored due dates are ISO *strings* (written by
`json.dump(..., default=str)`), while the default for a missing key is the
`datetime.date` object `date.max`. A `pstr` carries the date its ISO
string denotes (string order and date order agree). -/
inductive PyDueVal where
  | pstr (d : Date)
  | pdateMax
deriving DecidableEq

/-- The due component of `sort_key` as evaluated by the interpreter. -/
def pyDueOfRaw (t : RawTask) : PyDueVal :=
  match t.due with
  | some d => .pstr d
  | none => .pdateMax

/-- The `sort_key` tuple as the interpreter builds it (line 318-323):
`(not important, not urgent, t.get("due", date.max))`. -/
def pySortKey (t : RawTask) : Bool × Bool × PyDueVal :=
  (!rawImportant t, !rawUrgent t, pyDueOfRaw t)

/-- Python `==` on two due values: equal strings compare equal; `str ==
date` is simply `False` (no exception). -/
def pyValEq : PyDueVal → PyDueVal → Bool
  | .pstr a, .pstr b => a == b
  | .pdateMax, .pdateMax => true
  | _, _ => false

/-- Python `<` on two due values: defined between two strings (ISO order =
date order) and between two dates, but a mixed comparison raises
`TypeError` — modelled as `none`. -/
def pyValLt : PyDueVal → PyDueVal → Option Bool
  | .pstr a, .pstr b => some (dateLe a b && !(a == b))
  | .pdateMax, .pdateMax => some false
  | _, _ => none

/-- CPython's comparison of two `sort_key` tuples inside `sorted`: scan
for the first component where `==` fails, then apply `<` there (`False <
True` on the Bool components); `none` models a `TypeError` escaping from
the mixed due comparison. -/
def pyKeyLt (k1 k2 : Bool × Bool × PyDueVal) : Option Bool :=
  if k1.1 != k2.1 then some (!k1.1 && k2.1)
  else if k1.2.1 != k2.2.1 then some (!k1.2.1 && k2.2.1)
  else if !(pyValEq k1.2.2 k2.2.2) then pyValLt k1.2.2 k2.2.2
  else some false

/-- Characters that end a sentence, in the ordinary reading of the spec's
"sentence-terminating punctuation". -/
def isSentenceTerminator (c : Char) : Bool := c == '.' || c == '!' || c == '?'

/-- Splitting a character list at every sentence terminator. -/
def splitSentences : List Char → List (List Char)
  | [] => [[]]
  | c :: cs =>
    let r := splitSentences cs
    if isSentenceTerminator c then [] :: r
    else
      match r with
      | [] => [[c]]
      | x :: xs => (c :: x) :: xs

/-- Fragment list following the spec's words rather than the source:
"splits its `description` on sentence-terminating punctuation into
trimmed, non-empty fragments". Declared only to compare the source's
period-only splitting against the spec's description. -/
def specFragments (description : String) : List String :=
  ((splitSentences description.data).map (fun l => String.mk (pyStrip l))).filter
    (fun s => s != "")

/-- Eisenhower quadrant of a task: 0 = important∧urgent, 1 = important∧¬urgent,
2 = ¬important∧urgent, 3 = neither. -/
def quadRank (t : Task) : Nat :=
  if t.important && t.urgent then 0
  else if t.important then 1
  else if t.urgent then 2
  else 3

/-- The ordering the spec asserts for `prioritise_tasks` output: earlier
quadrant first, and inside a quadrant earlier due date first. -/
def eisLe (a b : Task) : Prop :=
  quadRank a < quadRank b ∨ (quadRank a = quadRank b ∧ dateLeProp a.due b.due)

theorem tripleLe_trans : ∀ x y z, tripleLe x y → tripleLe y z → tripleLe x z := by
  rintro ⟨a1, b1, y1, m1, d1⟩ ⟨a2, b2, y2, m2, d2⟩ ⟨a3, b3, y3, m3, d3⟩
  unfold tripleLe dateLeProp
  dsimp only
  omega

theorem tripleLe_total : ∀ x y, tripleLe x y ∨ tripleLe y x := by
  rintro ⟨a1, b1, y1, m1, d1⟩ ⟨a2, b2, y2, m2, d2⟩
  unfold tripleLe dateLeProp
  dsimp only
  omega

theorem keyLe_trans :
    ∀ a b c : RawTask, keyLe a b = true → keyLe b c = true → keyLe a c = true := by
  intro a b c hab hbc
  simp only [keyLe, decide_eq_true_eq] at *
  exact tripleLe_trans _ _ _ hab hbc

theorem keyLe_total : ∀ a b : RawTask, (keyLe a b || keyLe b a) = true := by
  intro a b
  simp only [keyLe, Bool.or_eq_true, decide_eq_true_eq]
  exact tripleLe_total _ _

/-- On a record passing validation, `forceTask` inverts `taskOfRaw` and its
fields agree with the raw `get` accessors. -/
theorem forceTask_spec (t : RawTask) (h : validRaw t = true) :
    taskOfRaw t = some (forceTask t) ∧
    (forceTask t).important = rawImportant t ∧
    (forceTask t).urgent = rawUrgent t ∧
    (forceTask t).due = sortKeyDue t ∧
    (forceTask t).completed = rawCompleted t := by
  rcases t with ⟨i, ti, de, du, im, ur, st, co⟩
  revert h
  rcases i with _ | i <;> rcases ti with _ | ti <;> rcases de with _ | de <;>
    rcases du with _ | du <;> rcases im with _ | im <;> rcases ur with _ | ur <;>
    simp [validRaw, taskOfRaw, forceTask, rawImportant, rawUrgent, sortKeyDue,
      rawCompleted]

/-- Validation round-trips through serialisation: `Task(**t.model_dump())`
returns the same task. -/
theorem taskOfRaw_rawOfTask (t : Task) : taskOfRaw (rawOfTask t) = some t := by
  rcases t with ⟨i, ti, de, du, im, ur, st, co⟩
  rfl

theorem validRaw_rawOfTask (t : Task) : validRaw (rawOfTask t) = true := by
  simp [validRaw, taskOfRaw_rawOfTask]

theorem forceTask_rawOfTask (t : Task) : forceTask (rawOfTask t) = t := by
  simp [forceTask, taskOfRaw_rawOfTask]

/-- On an all-valid record list, the validating map succeeds and is the
plain map of `forceTask`. -/
theorem mapTasks_eq_map (ts : List RawTask) (hv : ∀ t ∈ ts, validRaw t = true) :
    mapTasks ts = .ok (ts.map forceTask) := by
  induction ts with
  | nil => rfl
  | cons t ts ih =>
    have ht : validRaw t = true := hv t (List.mem_cons_self t ts)
    have hts : ∀ u ∈ ts, validRaw u = true := fun u hu => hv u (List.mem_cons_of_mem t hu)
    have hsome : taskOfRaw t = some (forceTask t) := (forceTask_spec t ht).1
    simp [mapTasks, hsome, ih hts, Except.map]

/-- The quadrant of a validated record, computed from the two booleans
that head its sort key. -/
theorem quadRank_forceTask (t : RawTask) (h : validRaw t = true) :
    quadRank (forceTask t) = 2 * (!rawImportant t).toNat + (!rawUrgent t).toNat := by
  obtain ⟨-, him, hur, -, -⟩ := forceTask_spec t h
  unfold quadRank
  rw [him, hur]
  cases rawImportant t <;> cases rawUrgent t <;> simp

/-- The comparison driving `sorted` implies the spec's Eisenhower order on
the validated tasks. -/
theorem keyLe_implies_eisLe (t1 t2 : RawTask) (h1 : validRaw t1 = true)
    (h2 : validRaw t2 = true) (hk : keyLe t1 t2 = true) :
    eisLe (forceTask t1) (forceTask t2) := by
  obtain ⟨-, -, -, hdue1, -⟩ := forceTask_spec t1 h1
  obtain ⟨-, -, -, hdue2, -⟩ := forceTask_spec t2 h2
  simp only [keyLe, decide_eq_true_eq, tripleLe, pyKey] at hk
  have e1 := quadRank_forceTask t1 h1
  have e2 := quadRank_forceTask t2 h2
  unfold eisLe
  rw [e1, e2, hdue1, hdue2]
  have b1 : (!rawImportant t1).toNat ≤ 1 := by cases rawImportant t1 <;> simp
  have b2 : (!rawImportant t2).toNat ≤ 1 := by cases rawImportant t2 <;> simp
  have b3 : (!rawUrgent t1).toNat ≤ 1 := by cases rawUrgent t1 <;> simp
  have b4 : (!rawUrgent t2).toNat ≤ 1 := by cases rawUrgent t2 <;> simp
  rcases hk with h | ⟨he, h | ⟨he2, hd⟩⟩
  · left; omega
  · left; omega
  · right; constructor
    · omega
    · exact hd

/-- Sorted records stay valid (sorting permutes the list). -/
theorem sortRaw_valid (ts : List RawTask) (hv : ∀ t ∈ ts, validRaw t = true) :
    ∀ t ∈ sortRaw ts, validRaw t = true :=
  fun t ht => hv t ((List.mergeSort_perm ts keyLe).mem_iff.mp ht)

/-- C1. `prioritise_tasks` on any stored collection of valid task records
returns exactly those tasks, reordered so that the (important∧urgent)
quadrant comes first, then (important∧¬urgent), then (¬important∧urgent),
then (¬important∧¬urgent), with due dates ascending inside each quadrant. -/
theorem c1_prioritise_eisenhower_order (act : List RawTask) (a : StoreFile)
    (hv : ∀ t ∈ act, validRaw t = true) :
    ∃ res,
      prioritiseTasks ⟨.json (.arr act), a⟩ = (.ok res, ⟨.json (.arr act), a⟩) ∧
      res.Perm (act.map forceTask) ∧
      res.Pairwise eisLe := by
  have hsv : ∀ t ∈ sortRaw act, validRaw t = true := sortRaw_valid act hv
  refine ⟨(sortRaw act).map forceTask, ?_, ?_, ?_⟩
  · unfold prioritiseTasks
    simp [loadListFile, mapTasks_eq_map (sortRaw act) hsv, Except.bind]
  · exact (List.mergeSort_perm act keyLe).map forceTask
  · have hp : (sortRaw act).Pairwise (fun a b => keyLe a b = true) :=
      List.sorted_mergeSort keyLe_trans keyLe_total act
    rw [List.pairwise_map]
    exact hp.imp_of_mem (fun {x y} hx hy hxy =>
      keyLe_implies_eisLe x y (hsv x hx) (hsv y hy) hxy)

/-- Convenient constructor for concrete stored records in the witnesses. -/
def mkRaw (i : Int) (im ur co : Bool) (due : Date) : RawTask :=
  { id := some i, title := some "t", description := some "d", due := some due,
    important := some im, urgent := some ur, subtasks := some [],
    completed := some co }

/-- Witness for C1: a collection holding one task per quadrant, given in
reverse priority order, is returned in quadrant order. -/
theorem c1_witness :
    ∃ res,
      prioritiseTasks ⟨.json (.arr [mkRaw 1 false false false ⟨2026, 1, 1⟩,
        mkRaw 2 false true false ⟨2026, 1, 2⟩, mkRaw 3 true false false ⟨2026, 1, 3⟩,
        mkRaw 4 true true false ⟨2026, 1, 4⟩]), .missing⟩ =
        (.ok res, ⟨.json (.arr [mkRaw 1 false false false ⟨2026, 1, 1⟩,
          mkRaw 2 false true false ⟨2026, 1, 2⟩, mkRaw 3 true false false ⟨2026, 1, 3⟩,
          mkRaw 4 true true false ⟨2026, 1, 4⟩]), .missing⟩) ∧
      res.Perm ([mkRaw 1 false false false ⟨2026, 1, 1⟩,
        mkRaw 2 false true false ⟨2026, 1, 2⟩, mkRaw 3 true false false ⟨2026, 1, 3⟩,
        mkRaw 4 true true false ⟨2026, 1, 4⟩].map forceTask) ∧
      res.Pairwise eisLe :=
  c1_prioritise_eisenhower_order _ _ (by decide)

/-- With no completed record, both filters of `archive_completed_tasks`
are trivial. -/
theorem filter_of_no_completed (ts : List RawTask)
    (h : ts.filter rawCompleted = []) :
    ts.filter (fun t => !rawCompleted t) = ts := by
  rw [List.filter_eq_self]
  intro t ht
  have := List.filter_eq_nil_iff.mp h t ht
  simp only [Bool.not_eq_true'] at *
  simp [this]

/-- C2 (amended). Provided no task id occurs twice across the two
collections, `archive_completed_tasks` leaves the active file holding
exactly the previously-incomplete records in order, the archive file
holding the previous archive followed by the previously-completed records
in order, and no id in both. -/
theorem c2_archive_partition (act arch : List RawTask)
    (hn : ((act ++ arch).map RawTask.id).Nodup) :
    ∃ m,
      archiveCompletedTasks ⟨.json (.arr act), .json (.arr arch)⟩ =
        (.ok m,
         ⟨.json (.arr (act.filter (fun t => !rawCompleted t))),
          .json (.arr (arch ++ act.filter rawCompleted))⟩) ∧
      (∀ t1 ∈ act.filter (fun t => !rawCompleted t),
        ∀ t2 ∈ arch ++ act.filter rawCompleted, t1.id ≠ t2.id) := by
  rw [List.map_append, List.nodup_append] at hn
  obtain ⟨hna, hnb, hdisj⟩ := hn
  have hdisjoint : ∀ t1 ∈ act.filter (fun t => !rawCompleted t),
      ∀ t2 ∈ arch ++ act.filter rawCompleted, t1.id ≠ t2.id := by
    intro t1 h1 t2 h2 heq
    have h1a : t1 ∈ act := (List.mem_filter.mp h1).1
    have h1c : rawCompleted t1 = false := by
      have h' := (List.mem_filter.mp h1).2
      simpa using h'
    rcases List.mem_append.mp h2 with h2a | h2c
    · have m2 : t1.id ∈ arch.map RawTask.id := by
        rw [heq]; exact List.mem_map_of_mem RawTask.id h2a
      exact hdisj (List.mem_map_of_mem RawTask.id h1a) m2
    · have h2act : t2 ∈ act := (List.mem_filter.mp h2c).1
      have h2comp : rawCompleted t2 = true := (List.mem_filter.mp h2c).2
      have he : t1 = t2 := List.inj_on_of_nodup_map hna h1a h2act heq
      rw [he, h2comp] at h1c
      exact Bool.noConfusion h1c
  cases hE : (act.filter rawCompleted).isEmpty with
  | true =>
    have hnil : act.filter rawCompleted = [] := by
      simpa [List.isEmpty_iff] using hE
    refine ⟨"No completed tasks to archive.", ?_, hdisjoint⟩
    unfold archiveCompletedTasks
    simp only [loadListFile]
    simp [hE, hnil, filter_of_no_completed act hnil]
  | false =>
    refine ⟨"Archived " ++ toString (act.filter rawCompleted).length ++
      " completed tasks.", ?_, hdisjoint⟩
    unfold archiveCompletedTasks
    simp only [loadListFile]
    simp [hE]

/-- Concrete active collection for the C2 witness. -/
def c2wAct : List RawTask :=
  [mkRaw 1 false false false ⟨2026, 1, 1⟩, mkRaw 2 true true true ⟨2026, 1, 2⟩]

/-- Concrete archive collection for the C2 witness. -/
def c2wArch : List RawTask := [mkRaw 3 true false true ⟨2025, 1, 1⟩]

/-- Witness for C2: concrete collections with pairwise-distinct ids. -/
theorem c2_witness :
    ((c2wAct ++ c2wArch).map RawTask.id).Nodup ∧
    (∃ m,
      archiveCompletedTasks ⟨.json (.arr c2wAct), .json (.arr c2wArch)⟩ =
        (.ok m,
         ⟨.json (.arr (c2wAct.filter (fun t => !rawCompleted t))),
          .json (.arr (c2wArch ++ c2wAct.filter rawCompleted))⟩) ∧
      (∀ t1 ∈ c2wAct.filter (fun t => !rawCompleted t),
        ∀ t2 ∈ c2wArch ++ c2wAct.filter rawCompleted, t1.id ≠ t2.id)) :=
  ⟨by decide, c2_archive_partition c2wAct c2wArch (by decide)⟩

/-- An incomplete record present in the active and the archive collection. -/
def ceInc : RawTask := mkRaw 1 false false false ⟨2026, 1, 1⟩

/-- A completed record, forcing `archive_completed_tasks` to write. -/
def ceComp : RawTask := mkRaw 2 false false true ⟨2026, 1, 2⟩

/-- Counterexample to C2 as stated: without a disjointness precondition the
final clause fails — starting from active `[ceInc, ceComp]` and archive
`[ceInc]`, after archiving the record `ceInc` (id 1) is left in both
collections. -/
theorem c2_counterexample :
    (archiveCompletedTasks
        ⟨.json (.arr [ceInc, ceComp]), .json (.arr [ceInc])⟩).2 =
      ⟨.json (.arr [ceInc]), .json (.arr [ceInc, ceComp])⟩ ∧
    ∃ t1, t1 ∈ ([ceInc] : List RawTask) ∧ t1 ∈ ([ceInc, ceComp] : List RawTask) := by
  refine ⟨by decide, ceInc, by simp, by simp⟩

/-- C8. When nothing in the loaded active collection is completed,
`archive_completed_tasks` reports that nothing was archived and performs no
write, and a second call does exactly the same. -/
theorem c8_archive_idempotent_when_none_completed (s : ServerState)
    (act : List RawTask) (hload : loadListFile s.active = .ok act)
    (hnc : ∀ t ∈ act, rawCompleted t = false) :
    archiveCompletedTasks s = (.ok "No completed tasks to archive.", s) ∧
    archiveCompletedTasks (archiveCompletedTasks s).2 =
      (.ok "No completed tasks to archive.", s) := by
  have hnil : act.filter rawCompleted = [] := by
    rw [List.filter_eq_nil_iff]
    intro t ht
    simp [hnc t ht]
  have h1 : archiveCompletedTasks s = (.ok "No completed tasks to archive.", s) := by
    unfold archiveCompletedTasks
    rw [hload]
    simp [hnil]
  refine ⟨h1, ?_⟩
  rw [h1]
  exact h1

/-- Concrete server state for the C8 witness: one incomplete active task. -/
def c8s : ServerState :=
  ⟨.json (.arr [mkRaw 9 true false false ⟨2027, 3, 4⟩]), .missing⟩

/-- Witness for C8 at a concrete state. -/
theorem c8_witness :
    archiveCompletedTasks c8s = (.ok "No completed tasks to archive.", c8s) ∧
    archiveCompletedTasks (archiveCompletedTasks c8s).2 =
      (.ok "No completed tasks to archive.", c8s) :=
  c8_archive_idempotent_when_none_completed c8s _ rfl (by decide)

/-- When no record matches the id, the lookup loop of
`mark_task_completed` falls through. -/
theorem markFirst_eq_none (tid : Int) (ts : List RawTask)
    (h : ∀ t ∈ ts, t.id ≠ some tid) : markFirst tid ts = none := by
  induction ts with
  | nil => rfl
  | cons t ts ih =>
    have ht : t.id ≠ some tid := h t (List.mem_cons_self t ts)
    have hts : ∀ u ∈ ts, u.id ≠ some tid :=
      fun u hu => h u (List.mem_cons_of_mem t hu)
    simp [markFirst, ht, ih hts]

/-- C4. On a stored collection containing no record with the requested id,
`mark_task_completed` returns the not-found message — no exception — and
the state, in particular the persisted active collection, is unchanged. -/
theorem c4_mark_not_found (act : List RawTask) (a : StoreFile) (tid : Int)
    (h : ∀ t ∈ act, t.id ≠ some tid) :
    markTaskCompleted tid ⟨.json (.arr act), a⟩ =
      (.ok ("Task " ++ toString tid ++ " not found."), ⟨.json (.arr act), a⟩) := by
  unfold markTaskCompleted
  simp [loadListFile, markFirst_eq_none tid act h]

/-- Witness for C4: id 5 does not occur in a two-record collection. -/
theorem c4_witness :
    markTaskCompleted 5 ⟨.json (.arr c2wAct), .missing⟩ =
      (.ok ("Task " ++ toString (5 : Int) ++ " not found."),
       ⟨.json (.arr c2wAct), .missing⟩) :=
  c4_mark_not_found c2wAct .missing 5 (by decide)

/-- Unrolling the lookup loop of `decompose_task` to the first matching
record. -/
theorem decompFirst_append (tid : Int) (pre post : List RawTask) (t : RawTask)
    (hpre : ∀ u ∈ pre, u.id ≠ some tid) (ht : t.id = some tid) :
    decompFirst tid (pre ++ t :: post) =
      some (codeFragments (t.description.getD ""),
        pre ++ { t with subtasks := some (codeFragments (t.description.getD "")) } :: post) := by
  induction pre with
  | nil => simp [decompFirst, ht]
  | cons u pre ih =>
    have hu : u.id ≠ some tid := hpre u (List.mem_cons_self u pre)
    have hpre2 : ∀ v ∈ pre, v.id ≠ some tid :=
      fun v hv => hpre v (List.mem_cons_of_mem u hv)
    simp [decompFirst, hu, ih hpre2]

/-- C5 (amended). For the first stored task matching the id,
`decompose_task` splits its description (defaulting to `""`) on *period*
characters into trimmed non-empty fragments, overwrites exactly that
task's `subtasks` with the fragment list, persists the collection, and
returns the fragments. -/
theorem c5_decompose_splits_on_periods (pre post : List RawTask) (t : RawTask)
    (a : StoreFile) (tid : Int)
    (hpre : ∀ u ∈ pre, u.id ≠ some tid) (ht : t.id = some tid) :
    decomposeTask tid ⟨.json (.arr (pre ++ t :: post)), a⟩ =
      (.ok (codeFragments (t.description.getD "")),
       ⟨.json (.arr (pre ++
          { t with subtasks := some (codeFragments (t.description.getD "")) } :: post)),
        a⟩) := by
  unfold decomposeTask
  simp [loadListFile, decompFirst_append tid pre post t hpre ht]

/-- The stored record of the C5 witness, carrying the spec's own example
description. -/
def c5Task : RawTask :=
  { mkRaw 11 true true false ⟨2026, 5, 6⟩ with
    description := some "Buy milk. Walk dog. Pay bills." }

/-- Witness for C5 applying the theorem at the spec's worked example:
"Buy milk. Walk dog. Pay bills." decomposes to
["Buy milk", "Walk dog", "Pay bills"], which is saved as the subtasks. -/
theorem c5_witness :
    decomposeTask 11 ⟨.json (.arr [c5Task]), .missing⟩ =
      (.ok (codeFragments (c5Task.description.getD "")),
       ⟨.json (.arr
          [{ c5Task with
             subtasks := some (codeFragments (c5Task.description.getD "")) }]),
        .missing⟩) ∧
    codeFragments (c5Task.description.getD "") = ["Buy milk", "Walk dog", "Pay bills"] :=
  ⟨c5_decompose_splits_on_periods [] [] c5Task .missing 11 (by decide) (by decide),
   by decide⟩

/-- The stored record of the C5 counterexample: its description ends one
sentence with an exclamation mark. -/
def c5Bang : RawTask :=
  { mkRaw 7 true true false ⟨2026, 5, 6⟩ with description := some "Stop! Go." }

/-- Counterexample to C5 as stated: the source splits only on periods, not
on sentence-terminating punctuation in general. On description
"Stop! Go." it returns the single fragment "Stop! Go", while splitting on
sentence-terminating punctuation (as `specFragments` renders the spec's
words) yields ["Stop", "Go"]. -/
theorem c5_counterexample :
    (decomposeTask 7 ⟨.json (.arr [c5Bang]), .missing⟩).1 = .ok ["Stop! Go"] ∧
    specFragments "Stop! Go." = ["Stop", "Go"] ∧
    (["Stop! Go"] : List String) ≠ ["Stop", "Go"] := by
  refine ⟨rfl, by decide, by decide⟩

/-- C6 (amended). For a missing backing file, malformed (non-JSON)
content, or JSON content that is not a list, `_load_tasks` — and hence
`list_tasks` — returns the empty collection without raising; only an
existing file whose open/read raises an error outside
`(json.JSONDecodeError, FileNotFoundError)` escapes. -/
theorem c6_load_degrades_to_empty :
    loadListFile .missing = .ok [] ∧
    loadListFile .badJson = .ok [] ∧
    loadListFile (.json .other) = .ok [] ∧
    (∀ a, listTasks ⟨.missing, a⟩ = (.ok [], ⟨.missing, a⟩)) ∧
    (∀ a, listTasks ⟨.badJson, a⟩ = (.ok [], ⟨.badJson, a⟩)) ∧
    (∀ a, listTasks ⟨.json .other, a⟩ = (.ok [], ⟨.json .other, a⟩)) :=
  ⟨rfl, rfl, rfl, fun _ => rfl, fun _ => rfl, fun _ => rfl⟩

/-- Counterexample to C6 as stated: an existing but unreadable active file
(e.g. `open` raising `PermissionError`) is not among the caught
exceptions, so loading raises instead of returning an empty list. -/
theorem c6_counterexample :
    loadListFile .unreadable = .error "PermissionError" ∧
    listTasks ⟨.unreadable, .missing⟩ =
      (.error "PermissionError", ⟨.unreadable, .missing⟩) :=
  ⟨rfl, rfl⟩

/-- A well-formed stored record in the important∧urgent quadrant. -/
def c7WithDue : RawTask := mkRaw 1 true true false ⟨2026, 1, 1⟩

/-- A stored record in the same quadrant with no `due` key. -/
def c7NoDue : RawTask := { mkRaw 2 true true false ⟨2026, 1, 1⟩ with due := none }

/-- C7 (code bug). The `date.max` default in `sort_key` is meant to sort a
record without a due date last, but stored due dates are ISO strings, so
whenever `sorted` compares the defaulted key with a real one — both
records being in the same Eisenhower quadrant — CPython raises `TypeError`
(modelled as `none`) instead of ordering them; and even aside from the
sort, such a record fails `Task(**t)` validation. The claimed ordering is
therefore never exhibited. -/
theorem c7_code_bug_missing_due_raises :
    pyKeyLt (pySortKey c7NoDue) (pySortKey c7WithDue) = none ∧
    pyKeyLt (pySortKey c7WithDue) (pySortKey c7NoDue) = none ∧
    taskOfRaw c7NoDue = none := by
  refine ⟨by decide, by decide, by decide⟩

/-- C10. The four read operations return the server state exactly as they
found it: none of them writes to the active or the archive file. -/
theorem c10_reads_do_not_write (s : ServerState) (today : Date) :
    (listTasks s).2 = s ∧
    (prioritiseTasks s).2 = s ∧
    (recommendTasksForToday today s).2 = s ∧
    (viewArchivedTasks s).2 = s := by
  refine ⟨rfl, rfl, rfl, ?_⟩
  rcases s with ⟨ac, ar⟩
  cases ar with
  | json v => cases v <;> rfl
  | missing => rfl
  | unreadable => rfl
  | badJson => rfl

/-- C3. `recommend_tasks_for_today` returns the first five of the
incomplete stored tasks ordered by the same `sort_key` as
`prioritise_tasks` (shown both against `sortRaw` and against a run of
`prioritiseTasks` itself on the incomplete records): never more than five
tasks, never a completed one, and the result does not depend on today's
date. -/
theorem c3_recommend_top_five (act : List RawTask) (a : StoreFile) (today : Date)
    (hv : ∀ t ∈ act, validRaw t = true) :
    ∃ res,
      recommendTasksForToday today ⟨.json (.arr act), a⟩ =
        (.ok res, ⟨.json (.arr act), a⟩) ∧
      res = ((sortRaw (act.filter (fun t => !rawCompleted t))).take 5).map forceTask ∧
      res.length ≤ 5 ∧
      (∀ t ∈ res, t.completed = false) ∧
      (∀ d : Date, recommendTasksForToday d ⟨.json (.arr act), a⟩ =
        recommendTasksForToday today ⟨.json (.arr act), a⟩) ∧
      (∃ allSorted,
        prioritiseTasks ⟨.json (.arr (act.filter (fun t => !rawCompleted t))), a⟩ =
          (.ok allSorted, ⟨.json (.arr (act.filter (fun t => !rawCompleted t))), a⟩) ∧
        res = allSorted.take 5) := by
  have hfv : ∀ t ∈ act.filter (fun t => !rawCompleted t), validRaw t = true :=
    fun t ht => hv t (List.mem_filter.mp ht).1
  have hsv : ∀ t ∈ sortRaw (act.filter (fun t => !rawCompleted t)), validRaw t = true :=
    sortRaw_valid _ hfv
  have htake : ∀ t ∈ (sortRaw (act.filter (fun t => !rawCompleted t))).take 5,
      validRaw t = true :=
    fun t ht => hsv t (List.take_subset 5 _ ht)
  refine ⟨((sortRaw (act.filter (fun t => !rawCompleted t))).take 5).map forceTask,
    ?_, rfl, ?_, ?_, fun d => rfl, ?_⟩
  · unfold recommendTasksForToday
    simp [loadListFile, mapTasks_eq_map _ htake, Except.bind]
  · calc (((sortRaw (act.filter (fun t => !rawCompleted t))).take 5).map forceTask).length
        = ((sortRaw (act.filter (fun t => !rawCompleted t))).take 5).length :=
          List.length_map _ _
      _ ≤ 5 := List.length_take_le 5 _
  · intro t ht
    obtain ⟨r, hr, rfl⟩ := List.mem_map.mp ht
    have hr2 : r ∈ sortRaw (act.filter (fun t => !rawCompleted t)) :=
      List.take_subset 5 _ hr
    have hr3 : r ∈ act.filter (fun t => !rawCompleted t) :=
      (List.mergeSort_perm _ keyLe).mem_iff.mp hr2
    have hrc : rawCompleted r = false := by
      have := (List.mem_filter.mp hr3).2
      simpa using this
    have := (forceTask_spec r (hfv r hr3)).2.2.2.2
    rw [this, hrc]
  · refine ⟨(sortRaw (act.filter (fun t => !rawCompleted t))).map forceTask, ?_, ?_⟩
    · unfold prioritiseTasks
      simp [loadListFile, mapTasks_eq_map _ hsv, Except.bind]
    · exact List.map_take forceTask _ 5

/-- Concrete collection for the C3 witness: seven tasks, two completed. -/
def c3Act : List RawTask :=
  [mkRaw 1 false false false ⟨2026, 1, 1⟩, mkRaw 2 false true true ⟨2026, 1, 2⟩,
   mkRaw 3 true false false ⟨2026, 1, 3⟩, mkRaw 4 true true false ⟨2026, 1, 4⟩,
   mkRaw 5 true true true ⟨2026, 1, 5⟩, mkRaw 6 false true false ⟨2026, 1, 6⟩,
   mkRaw 7 true false false ⟨2026, 1, 7⟩]

/-- Witness for C3 at a concrete collection and date. -/
theorem c3_witness :
    ∃ res,
      recommendTasksForToday ⟨2026, 2, 3⟩ ⟨.json (.arr c3Act), .missing⟩ =
        (.ok res, ⟨.json (.arr c3Act), .missing⟩) ∧
      res = ((sortRaw (c3Act.filter (fun t => !rawCompleted t))).take 5).map forceTask ∧
      res.length ≤ 5 ∧
      (∀ t ∈ res, t.completed = false) ∧
      (∀ d : Date, recommendTasksForToday d ⟨.json (.arr c3Act), .missing⟩ =
        recommendTasksForToday ⟨2026, 2, 3⟩ ⟨.json (.arr c3Act), .missing⟩) ∧
      (∃ allSorted,
        prioritiseTasks ⟨.json (.arr (c3Act.filter (fun t => !rawCompleted t))), .missing⟩ =
          (.ok allSorted,
           ⟨.json (.arr (c3Act.filter (fun t => !rawCompleted t))), .missing⟩) ∧
        res = allSorted.take 5) :=
  c3_recommend_top_five c3Act .missing ⟨2026, 2, 3⟩ (by decide)

/-- Digit characters produced for values below ten parse back to the same
value. -/
theorem digitChar_spec : ∀ k, k < 10 →
    (Nat.digitChar k).isDigit = true ∧ charVal (Nat.digitChar k) = k := by decide

theorem padDigits_two (n : Nat) :
    padDigits 2 n = [Nat.digitChar (n / 10 % 10), Nat.digitChar (n % 10)] := by
  simp [padDigits]

theorem padDigits_four (n : Nat) :
    padDigits 4 n = [Nat.digitChar (n / 10 / 10 / 10 % 10),
      Nat.digitChar (n / 10 / 10 % 10), Nat.digitChar (n / 10 % 10),
      Nat.digitChar (n % 10)] := by
  simp [padDigits]

theorem daysInMonth_le (y m : Nat) : daysInMonth y m ≤ 31 := by
  unfold daysInMonth
  split
  · split <;> omega
  · split <;> omega

/-- A valid date serialised by `json.dump(..., default=str)` to its ISO
string is parsed back by pydantic to the same date. -/
theorem pydanticParseDate_pyStrOfDate (d : Date) (h : d.valid = true) :
    pydanticParseDate (pyStrOfDate d) = some d := by
  rcases d with ⟨y, m, dd⟩
  have hb : 1 ≤ y ∧ y ≤ 9999 ∧ 1 ≤ m ∧ m ≤ 12 ∧ 1 ≤ dd ∧
      dd ≤ daysInMonth y m := by
    simpa [Date.valid] using h
  have hdd : dd ≤ 31 := le_trans hb.2.2.2.2.2 (daysInMonth_le y m)
  unfold pyStrOfDate
  rw [padDigits_four, padDigits_two, padDigits_two]
  simp only [List.cons_append, List.nil_append]
  have h1 := digitChar_spec (y / 10 / 10 / 10 % 10) (Nat.mod_lt _ (by omega))
  have h2 := digitChar_spec (y / 10 / 10 % 10) (Nat.mod_lt _ (by omega))
  have h3 := digitChar_spec (y / 10 % 10) (Nat.mod_lt _ (by omega))
  have h4 := digitChar_spec (y % 10) (Nat.mod_lt _ (by omega))
  have h5 := digitChar_spec (m / 10 % 10) (Nat.mod_lt _ (by omega))
  have h6 := digitChar_spec (m % 10) (Nat.mod_lt _ (by omega))
  have h7 := digitChar_spec (dd / 10 % 10) (Nat.mod_lt _ (by omega))
  have h8 := digitChar_spec (dd % 10) (Nat.mod_lt _ (by omega))
  have hy : ((charVal (Nat.digitChar (y / 10 / 10 / 10 % 10)) * 10 +
      charVal (Nat.digitChar (y / 10 / 10 % 10))) * 10 +
      charVal (Nat.digitChar (y / 10 % 10))) * 10 +
      charVal (Nat.digitChar (y % 10)) = y := by
    rw [h1.2, h2.2, h3.2, h4.2]; omega
  have hm : charVal (Nat.digitChar (m / 10 % 10)) * 10 +
      charVal (Nat.digitChar (m % 10)) = m := by
    rw [h5.2, h6.2]; omega
  have hd : charVal (Nat.digitChar (dd / 10 % 10)) * 10 +
      charVal (Nat.digitChar (dd % 10)) = dd := by
    rw [h7.2, h8.2]; omega
  simp only [pydanticParseDate, h1.1, h2.1, h3.1, h4.1, h5.1, h6.1, h7.1, h8.1,
    hy, hm, hd, Bool.and_true, Bool.true_and, beq_self_eq_true, if_true]
  simp [h]

/-- C9. Adding a task over a valid stored collection succeeds, and an
immediate `list_tasks` returns the prior tasks followed by a record
field-for-field equal to the one passed to `add_task`; the due date in
particular survives its serialisation to an ISO string and pydantic's
parse back. -/
theorem c9_add_then_list_roundtrip (act : List RawTask) (a : StoreFile)
    (hv : ∀ t ∈ act, validRaw t = true)
    (i : Int) (title description : String) (due : Date) (important urgent : Bool)
    (subtasks : Option (List String)) (completed : Bool)
    (hdue : due.valid = true) :
    ∃ s2,
      addTask i title description due important urgent subtasks completed
          ⟨.json (.arr act), a⟩ =
        (.ok ⟨i, title, description, due, important, urgent,
          subtasks.getD [], completed⟩, s2) ∧
      listTasks s2 =
        (.ok (act.map forceTask ++ [⟨i, title, description, due, important,
          urgent, subtasks.getD [], completed⟩]), s2) ∧
      pydanticParseDate (pyStrOfDate due) = some due := by
  refine ⟨⟨.json (.arr (act ++ [rawOfTask ⟨i, title, description, due, important,
    urgent, subtasks.getD [], completed⟩])), a⟩, ?_, ?_,
    pydanticParseDate_pyStrOfDate due hdue⟩
  · unfold addTask
    simp [loadListFile]
  · unfold listTasks
    have hv2 : ∀ t ∈ act ++ [rawOfTask ⟨i, title, description, due, important,
        urgent, subtasks.getD [], completed⟩], validRaw t = true := by
      intro t ht
      rcases List.mem_append.mp ht with hmem | hmem
      · exact hv t hmem
      · have : t = rawOfTask ⟨i, title, description, due, important, urgent,
            subtasks.getD [], completed⟩ := by simpa using hmem
        rw [this]
        exact validRaw_rawOfTask _
    simp [loadListFile, mapTasks_eq_map _ hv2, Except.bind, forceTask_rawOfTask]

/-- Witness for C9: one concrete task added over a concrete valid
collection. -/
theorem c9_witness :
    ∃ s2,
      addTask 42 "w" "x" ⟨2026, 2, 28⟩ true false none false
          ⟨.json (.arr c2wAct), .missing⟩ =
        (.ok ⟨42, "w", "x", ⟨2026, 2, 28⟩, true, false,
          (none : Option (List String)).getD [], false⟩, s2) ∧
      listTasks s2 =
        (.ok (c2wAct.map forceTask ++ [⟨42, "w", "x", ⟨2026, 2, 28⟩, true, false,
          (none : Option (List String)).getD [], false⟩]), s2) ∧
      pydanticParseDate (pyStrOfDate ⟨2026, 2, 28⟩) = some ⟨2026, 2, 28⟩ :=
  c9_add_then_list_roundtrip c2wAct .missing (by decide) 42 "w" "x" ⟨2026, 2, 28⟩
    true false none false (by decide)
